import Mathlib

/-!
Shallow embedding of the daemon lifecycle, transport and stream-proxy
subsystem of `pgt_cli` (file `crates/pgt_cli/src/commands/daemon.rs`),
together with the analyser code generator
(`xtask/codegen/src/generate_analyser.rs`), and proofs of the spec claims
about them.
-/

namespace Daemon

/-- Rust enum `pgt_workspace::TransportError`: transport-level failures.  Only the
`ChannelClosed` constructor is matched by name in `daemon.rs`; the other
variants are collapsed into `other`. -/
inductive TransportError where
  | channelClosed
  | other (msg : String)
deriving DecidableEq, Repr

/-- Rust enum `pgt_workspace::WorkspaceError` as observed by `stop`: either a
transport error or any other workspace-level error. -/
inductive WorkspaceError where
  | transportError (e : TransportError)
  | other (msg : String)
deriving DecidableEq, Repr

/-- Rust type `CliDiagnostic`: the error type of the CLI.  `stop` builds one from a
`WorkspaceError` via `CliDiagnostic::from`. -/
inductive CliDiagnostic where
  | fromWorkspace (e : WorkspaceError)
deriving DecidableEq, Repr

/-- Result of one run of `stop`: the returned value together with the
console messages logged and whether `client.shutdown()` was invoked. -/
structure StopRun where
  result : Except CliDiagnostic Unit
  messages : List String
  shutdownAttempted : Bool
deriving Repr

/-- Embedding of `stop` (daemon.rs lines 49-74).  The environment is
summarised by the outcome of `open_transport` (`none` when no listener
answers, `some ()` when a transport opens) and, when a transport opened,
by the outcome of `client.shutdown()`.

```rust
match open_transport(rt)? {
    Some(transport) => {
        let client = WorkspaceClient::new(transport)?;
        match client.shutdown() {
            Ok(()) | Err(WorkspaceError::TransportError(TransportError::ChannelClosed)) => {}
            Err(err) => return Err(CliDiagnostic::from(err)),
        };
        session.app.console.log(markup! { "The server was successfully stopped" });
    }
    _ => {
        session.app.console.log(markup! { "The server was not running" });
    }
}
Ok(())
``` -/
def stop (transport : Option Unit) (shutdownOutcome : Except WorkspaceError Unit) :
    StopRun :=
  match transport with
  | some _ =>
    match shutdownOutcome with
    | .ok () =>
      { result := .ok (), messages := ["The server was successfully stopped"],
        shutdownAttempted := true }
    | .error (.transportError .channelClosed) =>
      { result := .ok (), messages := ["The server was successfully stopped"],
        shutdownAttempted := true }
    | .error err =>
      { result := .error (.fromWorkspace err), messages := [],
        shutdownAttempted := true }
  | none =>
    { result := .ok (), messages := ["The server was not running"],
      shutdownAttempted := false }

/-- The function `run_daemon` has Rust type `Result<Infallible, Error>`: its success
payload is the empty type. -/
def DaemonError := String
deriving instance DecidableEq, Repr for DaemonError

/-- Which arm of the `tokio::select!` in `run_server` fires first: either
`run_daemon` completes with its result, or the cancellation notification
is received first. -/
inductive RaceOutcome where
  | daemonFirst (res : Except DaemonError Empty)
  | cancelFirst

/-- Embedding of the `select!` body of `run_server` (daemon.rs lines
89-102): if `run_daemon` completes first, an `Ok(never)` payload is
eliminated by `match never {}` and an error is propagated; if the
cancellation signal fires first the composed wait returns `Ok(())`. -/
def run_server_select (o : RaceOutcome) : Except DaemonError Unit :=
  match o with
  | .daemonFirst (.ok never) => never.elim
  | .daemonFirst (.error err) => .error err
  | .cancelFirst => .ok ()

/-- An I/O error carried by a failed `tokio::io::copy`. -/
def IOErr := String
deriving instance DecidableEq, Repr for IOErr

/-- Outcome of one `io::copy(&mut reader, &mut writer).await` call inside a
forwarding loop of `start_lsp_proxy`: `Ok(n)` with the number of bytes
copied, or `Err(e)` with an I/O error. -/
inductive CopyOutcome where
  | ok (n : Nat)
  | err (e : IOErr)
deriving DecidableEq, Repr

/-- Embedding of one forwarding loop of `start_lsp_proxy` (either
stdin-to-socket, daemon.rs lines 142-153, or socket-to-stdout, lines
157-168), run against the trace of outcomes its `io::copy` calls produce:

```rust
loop {
    match io::copy(&mut r, &mut w).await {
        Ok(b) => { if b == 0 { return Ok(()); } }
        Err(err) => return Err(err),
    };
}
```

`none` means the trace was exhausted without the loop returning (the loop
is still running, blocked on the next copy). -/
def forward_loop : List CopyOutcome → Option (Except IOErr Unit)
  | [] => none
  | .ok n :: rest => if n = 0 then some (.ok ()) else forward_loop rest
  | .err e :: _ => some (.error e)

/-- An event of a copy trace is terminal when it makes the forwarding loop
return: a zero-byte read (clean end-of-stream) or an I/O error. -/
def CopyOutcome.terminal : CopyOutcome → Bool
  | .ok n => n = 0
  | .err _ => true

/-- Embedding of the forwarding phase of `start_lsp_proxy` (daemon.rs
lines 138-175).  `socket` is the result of `open_socket().await?`; when a
socket opened, `inTrace` and `outTrace` are the copy traces of the
stdin-to-socket and socket-to-stdout loops.  The phase completes only when
both spawned loops have returned (`input_handle.await` then
`out_put_handle.await`); both join results are discarded (`let _ =`) and
the phase returns `Ok(())`:

```rust
match open_socket().await? {
    Some((mut owned_read_half, mut owned_write_half)) => {
        let input_handle = rt.spawn(async move { ... });
        let out_put_handle = rt.spawn(async move { ... });
        let _ = input_handle.await;
        let _ = out_put_handle.await;
        Ok(())
    }
    None => Ok(()),
}
```

`none` models a phase that has not completed because at least one loop has
not returned. -/
def lsp_proxy_phase (socket : Option Unit) (inTrace outTrace : List CopyOutcome) :
    Option (Except CliDiagnostic Unit) :=
  match socket with
  | some _ =>
    match forward_loop inTrace, forward_loop outTrace with
    | some _, some _ => some (.ok ())
    | _, _ => none
  | none => some (.ok ())

end Daemon

namespace Logging

/-- Rust type `tracing::Level`: severity of an event, from most severe (`error`) to
most verbose (`trace`). -/
inductive Level where
  | error | warn | info | debug | trace
deriving DecidableEq, Repr

/-- Verbosity rank of a `Level`; `tracing` orders levels with `ERROR`
least and `TRACE` greatest. -/
def Level.toNat : Level → Nat
  | .error => 0
  | .warn => 1
  | .info => 2
  | .debug => 3
  | .trace => 4

/-- Rust type `tracing::metadata::LevelFilter`: a `Level` or `OFF`. -/
inductive LevelFilter where
  | off | error | warn | info | debug | trace
deriving DecidableEq, Repr

/-- Verbosity rank of a `LevelFilter`, with `OFF` strictly below every
`Level`. -/
def LevelFilter.toNat : LevelFilter → Nat
  | .off => 0
  | .error => 1
  | .warn => 2
  | .info => 3
  | .debug => 4
  | .trace => 5

/-- The comparison `meta.level() <= &filter` of `tracing`: an event level is at
or below a filter when its verbosity does not exceed that of the filter. -/
def levelLE (l : Level) (f : LevelFilter) : Bool :=
  l.toNat + 1 ≤ f.toNat

/-- Constant `SELF_FILTER` (daemon.rs lines 221-225):

```rust
const SELF_FILTER: LevelFilter = if cfg!(debug_assertions) {
    LevelFilter::TRACE
} else {
    LevelFilter::DEBUG
};
```
`debugAssertions` is `true` in a debug build and `false` in a release
build. -/
def SELF_FILTER (debugAssertions : Bool) : LevelFilter :=
  if debugAssertions then .trace else .debug

/-- Embedding of `str::starts_with` on string slices: character-wise
prefix test. -/
def starts_with (s pre : String) : Bool :=
  String.data pre |>.isPrefixOf (String.data s)

/-- Embedding of `LoggingFilter::is_enabled` (daemon.rs lines 228-236), applied to an
target string and level of an event:

```rust
fn is_enabled(&self, meta) -> bool {
    let filter = if meta.target().starts_with("pgt") {
        SELF_FILTER
    } else {
        LevelFilter::INFO
    };
    meta.level() <= &filter
}
``` -/
def LoggingFilter.is_enabled (debugAssertions : Bool) (target : String) (level : Level) :
    Bool :=
  let filter := if starts_with target "pgt" then SELF_FILTER debugAssertions
                else LevelFilter.info
  levelLE level filter

/-- Method `Filter::enabled` for `LoggingFilter` simply delegates to
`is_enabled`. -/
def LoggingFilter.enabled (debugAssertions : Bool) (target : String) (level : Level) :
    Bool :=
  LoggingFilter.is_enabled debugAssertions target level

/-- Rust type `tracing_appender::rolling::Rotation`, the values used here. -/
inductive Rotation where
  | minutely | hourly | daily | never
deriving DecidableEq, Repr

/-- The rolling-file-appender configuration assembled by
`setup_tracing_subscriber`. -/
structure RollingAppenderConfig where
  directory : String
  filename_prefix : String
  max_log_files : Nat
  rotation : Rotation
deriving Repr

/-- Embedding of `setup_tracing_subscriber` (daemon.rs lines 184-206),
as the appender configuration it builds.  `cache_dir` stands for
`pgt_fs::ensure_cache_dir()` and path join is modelled as `/`-concatenation:

```rust
let pgt_log_path = log_path.unwrap_or(pgt_fs::ensure_cache_dir().join("pgt-logs"));
let file_appender = appender_builder
    .filename_prefix(log_file_name_prefix.unwrap_or(String::from("server.log")))
    .max_log_files(7)
    .rotation(Rotation::HOURLY)
    .build(pgt_log_path)
``` -/
def setup_tracing_subscriber (cache_dir : String) (log_path : Option String)
    ( log_file_name_prefix : Option String) : RollingAppenderConfig :=
  let pgt_log_path := log_path.getD (cache_dir ++ "/pgt-logs")
  { directory := pgt_log_path
    filename_prefix := log_file_name_prefix.getD "server.log"
    max_log_files := 7
    rotation := .hourly }

/-- Embedding of `default_pgt_log_path` (daemon.rs lines 208-213).  `env_PGT_LOG_PATH`
is the value of the `PGT_LOG_PATH` environment variable:

```rust
match env::var_os("PGT_LOG_PATH") {
    Some(directory) => PathBuf::from(directory),
    None => pgt_fs::ensure_cache_dir().join("pgt-logs"),
}
``` -/
def default_pgt_log_path (cache_dir : String) (env_PGT_LOG_PATH : Option String) :
    String :=
  match env_PGT_LOG_PATH with
  | some directory => directory
  | none => cache_dir ++ "/pgt-logs"

/-- Modelled from the spec: the CLI argument layer that supplies the
`log_path` argument at daemon start is not part of `src/` (only
`default_pgt_log_path`, which it calls, is).  Per the spec — "Output
sink: … defaulting to a tool-managed cache directory or an environment
override" and "Environment override for log directory is read once at
daemon start" — when no explicit `log_path` argument is given, daemon
start resolves the log directory through `default_pgt_log_path`, reading
the environment variable once, and hands the result to
`setup_tracing_subscriber`. -/
def daemon_log_directory (cache_dir : String) (env_PGT_LOG_PATH : Option String)
    (log_path_arg : Option String) ( log_file_name_prefix : Option String) : String :=
  let resolved := log_path_arg.getD (default_pgt_log_path cache_dir env_PGT_LOG_PATH)
  (setup_tracing_subscriber cache_dir (some resolved) log_file_name_prefix).directory

/-- Modelled from the spec: the retention behaviour of the rolling file
appender (the `tracing_appender` library, not part of `src/`): "capped
retained-file count", "once more than 7 rotation files exist, the oldest
are removed so exactly 7 remain".  `files` is the list of rotation
timestamps in ascending (chronological) order; pruning keeps the newest
`maxFiles`. -/
def prune_log_files (maxFiles : Nat) (files : List Nat) : List Nat :=
  files.drop (files.length - maxFiles)

end Logging

namespace Codegen

/-- Embedding of `std::collections::BTreeMap<String, V>` as an association
list with strictly increasing keys.  `btreeInsert` is `BTreeMap::insert`:
it keeps keys ordered and replaces the value at an equal key. -/
def btreeInsert {α : Type} (k : String) (v : α) :
    List (String × α) → List (String × α)
  | [] => [(k, v)]
  | (k', v') :: t =>
    if k < k' then (k, v) :: (k', v') :: t
    else if k = k' then (k, v) :: t
    else (k', v') :: btreeInsert k v t

/-- Building a `BTreeMap` by inserting a sequence of key/value pairs in
the order in which a loop produces them (for the code generator: the
order in which `fs2::read_dir` returns directory entries). -/
def btreeOfList {α : Type} (pairs : List (String × α)) : List (String × α) :=
  pairs.foldl (fun m p => btreeInsert p.1 p.2 m) []

/-- Embedding of `BTreeMap::into_values`: the values in ascending key order. -/
def btreeValues {α : Type} (m : List (String × α)) : List α :=
  m.map Prod.snd

/-- The group file emitted by `generate_group`
(generate_analyser.rs lines 138-200): the ordered rule-module
declarations and rule paths interpolated into the `declare_lint_group!`
invocation, plus the group header. -/
structure GroupFile where
  rule_imports : List String
  rule_names : List String
  group_name : String
  name : String
deriving DecidableEq, Repr

/-- Embedding of `generate_group`.  `entries` are the file stems of the
entries of the group directory, in the order the filesystem returns them;
`pascal` stands for `Case::Pascal.convert` (external crate
`biome_string_case`).  Each entry is inserted into a `BTreeMap` keyed by
its Pascal-case rule type, with value

```rust
( quote! { pub mod #module_name; }, quote! { self::#module_name::#rule_type } )
```

and the values of the map are emitted in key order via `into_values`. -/
def generate_group (pascal : String → String) (group : String)
    (entries : List String) : GroupFile :=
  let rules := btreeOfList (entries.map (fun file_name =>
    (pascal file_name,
      ("pub mod " ++ file_name ++ ";",
       "self::" ++ file_name ++ "::" ++ pascal file_name))))
  let vals := btreeValues rules
  { rule_imports := vals.map Prod.fst
    rule_names := vals.map Prod.snd
    group_name := pascal group
    name := group }

/-- The category file emitted by `generate_category`
(generate_analyser.rs lines 63-136): the ordered module declarations and
group paths interpolated into `declare_category!`. -/
structure CategoryFile where
  modules : List String
  paths : List String
deriving DecidableEq, Repr

/-- Embedding of the assembly of the category file in `generate_category`.
`dirs` are the file stems of the subdirectories of the category directory, in
the order the filesystem returns them.  Each is inserted into a
`BTreeMap` keyed by `file_name.to_string()`, with value

```rust
( quote! { pub mod #module_name; }, quote! { self::#module_name::#group_name } )
```

and the values of the map are emitted in key order via `into_values`. -/
def generate_category (pascal : String → String) (dirs : List String) :
    CategoryFile :=
  let groups := btreeOfList (dirs.map (fun file_name =>
    (file_name,
      ("pub mod " ++ file_name ++ ";",
       "self::" ++ file_name ++ "::" ++ pascal file_name))))
  let vals := btreeValues groups
  { modules := vals.map Prod.fst
    paths := vals.map Prod.snd }

/-- The registry-recording line `generate_category` inserts into the
`entries` map under key `name` (`"lint"`):
`registry.record_category::<crate::#module_name::#category_name>();`. -/
def category_entry (pascal : String → String) (name : String) : String × String :=
  (name, "registry.record_category::<crate::" ++ name ++ "::" ++ pascal name ++ ">();")

/-- Embedding of `update_linter_registry_builder`
(generate_analyser.rs lines 202-218): the body of `visit_registry` is the
values of the accumulated map in key order (`rules.into_values()`). -/
def update_linter_registry_builder (rules : List (String × String)) : List String :=
  btreeValues rules

/-- A concrete Pascal-case conversion used as input below, agreeing with
`Case::Pascal.convert` of the external `biome_string_case` crate on the
file stems it is applied to: both the snake-case stem `foo_bar` and the
camel-case stem `fooBar` convert to `FooBar`, so two distinct rule files
can collide on one map key. -/
def pascal_demo (s : String) : String :=
  if s = "foo_bar" then "FooBar" else if s = "fooBar" then "FooBar" else s

end Codegen

/-!
## Claim theorems
-/

/-- C1: for every outcome of `WorkspaceClient.shutdown()` invoked by
`stop`: an `Ok` result or a failure with exactly the `ChannelClosed`
transport error makes `stop` report success (the server was stopped); any
other error is returned by `stop` as a failure. -/
theorem C1_stop_shutdown_policy :
    (∀ sr : Except Daemon.WorkspaceError Unit,
      sr = .ok () ∨ sr = .error (.transportError .channelClosed) →
      (Daemon.stop (some ()) sr).result = .ok () ∧
      (Daemon.stop (some ()) sr).messages = ["The server was successfully stopped"]) ∧
    (∀ e : Daemon.WorkspaceError, e ≠ .transportError .channelClosed →
      (Daemon.stop (some ()) (.error e)).result = .error (.fromWorkspace e)) := by
  constructor
  · rintro sr (rfl | rfl) <;> exact ⟨rfl, rfl⟩
  · intro e he
    cases e with
    | transportError te =>
      cases te with
      | channelClosed => exact absurd rfl he
      | other m => rfl
    | other m => rfl

/-- Witness for C1 at concrete inputs: a `ChannelClosed` failure is
reported as success, and a distinct transport failure is surfaced. -/
theorem C1_stop_shutdown_policy_witness :
    ((Daemon.stop (some ()) (.error (.transportError .channelClosed))).result = .ok () ∧
     (Daemon.stop (some ()) (.error (.transportError .channelClosed))).messages =
       ["The server was successfully stopped"]) ∧
    (Daemon.stop (some ()) (.error (.other "boom"))).result =
      .error (.fromWorkspace (.other "boom")) :=
  ⟨C1_stop_shutdown_policy.1 _ (Or.inr rfl),
   C1_stop_shutdown_policy.2 (.other "boom") (by decide)⟩

/-- C5: the composed wait of `run_server` returns `Ok` when the
cancellation signal fires first; the success-typed branch of the race
(`run_daemon` returning through its `Ok(Infallible)` variant) is
unreachable, and `run_server` can only return `Ok` via cancellation. -/
theorem C5_run_server_cancellation :
    Daemon.run_server_select .cancelFirst = .ok () ∧
    (∀ res : Except Daemon.DaemonError Empty,
      Daemon.run_server_select (.daemonFirst res) ≠ .ok ()) ∧
    (∀ o : Daemon.RaceOutcome,
      Daemon.run_server_select o = .ok () → o = .cancelFirst) := by
  refine ⟨rfl, ?_, ?_⟩
  · intro res
    cases res with
    | ok e => exact e.elim
    | error err => exact fun h => Except.noConfusion h
  · intro o h
    cases o with
    | daemonFirst res =>
      cases res with
      | ok e => exact e.elim
      | error err => exact absurd h (fun hh => Except.noConfusion hh)
    | cancelFirst => rfl

/-- Witness for C5: applying the only-via-cancellation direction at the
cancellation outcome itself. -/
theorem C5_run_server_cancellation_witness :
    Daemon.RaceOutcome.cancelFirst = Daemon.RaceOutcome.cancelFirst :=
  C5_run_server_cancellation.2.2 Daemon.RaceOutcome.cancelFirst rfl

/-- C6: `stop` against an address with no listener (the transport probe
yields no connection) logs that the server was not running, returns
success, and never attempts `shutdown()`. -/
theorem C6_stop_no_listener (sr : Except Daemon.WorkspaceError Unit) :
    (Daemon.stop none sr).result = .ok () ∧
    (Daemon.stop none sr).messages = ["The server was not running"] ∧
    (Daemon.stop none sr).shutdownAttempted = false :=
  ⟨rfl, rfl, rfl⟩

/-- C10: when `ensure_daemon` succeeded but `open_socket` yields no
connection, the forwarding phase of `start_lsp_proxy` returns success
immediately, whatever the (never-consulted) copy traces would have been,
and reports no diagnostic. -/
theorem C10_lsp_proxy_no_socket (inTrace outTrace : List Daemon.CopyOutcome) :
    Daemon.lsp_proxy_phase none inTrace outTrace = some (.ok ()) :=
  rfl

/-- C2 counterexample: a run in which the stdin-to-socket loop terminates
with an I/O error (not end-of-stream) while the socket-to-stdout loop ends
cleanly, yet the forwarding phase of `start_lsp_proxy` reports success —
refuting the claim that such an error is reported as a failure. -/
theorem C2_counterexample :
    Daemon.forward_loop [.err "broken pipe"] = some (.error "broken pipe") ∧
    Daemon.lsp_proxy_phase (some ()) [.err "broken pipe"] [.ok 0] = some (.ok ()) :=
  ⟨rfl, rfl⟩

/-- C2 amended: once both forwarding loops have finished, the forwarding
phase of `start_lsp_proxy` returns success regardless of either loop
outcome: both join results are discarded (`let _ = handle.await`), so an
I/O error in a loop is never surfaced. -/
theorem C2_tunnel_discards_loop_errors (socket : Unit)
    (inTrace outTrace : List Daemon.CopyOutcome)
    (r₁ r₂ : Except Daemon.IOErr Unit)
    (h₁ : Daemon.forward_loop inTrace = some r₁)
    (h₂ : Daemon.forward_loop outTrace = some r₂) :
    Daemon.lsp_proxy_phase (some socket) inTrace outTrace = some (.ok ()) := by
  simp [Daemon.lsp_proxy_phase, h₁, h₂]

/-- Witness for the amended C2: both loops finished (one with an I/O
error) and the phase reports success. -/
theorem C2_tunnel_discards_loop_errors_witness :
    Daemon.lsp_proxy_phase (some ()) [.err "lost"] [.ok 0] = some (.ok ()) :=
  C2_tunnel_discards_loop_errors () [.err "lost"] [.ok 0]
    (.error "lost") (.ok ()) rfl rfl

/-- C7: a forwarding loop returns exactly at the first terminal event of
its own trace — with success at a zero-byte read and with the error at an
I/O error — and the forwarding phase completes exactly when both loops
have finished, neither cancelling the other. -/
theorem C7_forwarding_loops :
    (∀ trace : List Daemon.CopyOutcome,
      Daemon.forward_loop trace =
        (trace.find? Daemon.CopyOutcome.terminal).map
          (fun e => match e with
            | .ok _ => .ok ()
            | .err err => .error err)) ∧
    (∀ (socket : Unit) (inTrace outTrace : List Daemon.CopyOutcome),
      (Daemon.lsp_proxy_phase (some socket) inTrace outTrace).isSome ↔
        (Daemon.forward_loop inTrace).isSome ∧
        (Daemon.forward_loop outTrace).isSome) := by
  constructor
  · intro trace
    induction trace with
    | nil => rfl
    | cons head tail ih =>
      cases head with
      | ok n =>
        by_cases hn : n = 0
        · subst hn
          simp [Daemon.forward_loop, Daemon.CopyOutcome.terminal]
        · simp [Daemon.forward_loop, Daemon.CopyOutcome.terminal, hn, ih]
      | err e =>
        simp [Daemon.forward_loop, Daemon.CopyOutcome.terminal]
  · intro socket inTrace outTrace
    cases h₁ : Daemon.forward_loop inTrace <;>
      cases h₂ : Daemon.forward_loop outTrace <;>
        simp [Daemon.lsp_proxy_phase, h₁, h₂]

/-- C3: when the daemon starts with no explicit log_path argument, the
rotated-log directory is the environment override for the log directory
when that variable is set, and the tool-managed cache directory joined
with "pgt-logs" otherwise; the environment is read once, as the single
`env_PGT_LOG_PATH` value resolved at daemon start. -/
theorem C3_default_log_directory :
    (∀ (cache_dir d : String) (p : Option String),
      Logging.daemon_log_directory cache_dir (some d) none p = d) ∧
    (∀ (cache_dir : String) (p : Option String),
      Logging.daemon_log_directory cache_dir none none p =
        cache_dir ++ "/pgt-logs") :=
  ⟨fun _ _ _ => rfl, fun _ _ => rfl⟩

/-- C4: `LoggingFilter` enables an event with target `t` and level `l`
iff `l` is at or below `TRACE` (debug build) respectively `DEBUG`
(release build) when `t` starts with "pgt", and iff `l` is at or below
`INFO` otherwise; in particular a DEBUG event from a pgt-prefixed source
is enabled in both builds, while a DEBUG event from any other source is
disabled in both builds and an INFO event from any other source is
enabled in both builds. -/
theorem C4_logging_filter_policy :
    ∀ (debugAssertions : Bool) (t : String) (l : Logging.Level),
      (Logging.LoggingFilter.enabled debugAssertions t l = true ↔
        (if Logging.starts_with t "pgt" then
          Logging.Level.toNat l ≤
            (if debugAssertions then Logging.Level.toNat .trace
             else Logging.Level.toNat .debug)
         else Logging.Level.toNat l ≤ Logging.Level.toNat .info)) ∧
      (Logging.starts_with t "pgt" = true →
        Logging.LoggingFilter.enabled debugAssertions t .debug = true) ∧
      (Logging.starts_with t "pgt" = false →
        Logging.LoggingFilter.enabled debugAssertions t .debug = false ∧
        Logging.LoggingFilter.enabled debugAssertions t .info = true) := by
  intro dbg t l
  cases hs : Logging.starts_with t "pgt" <;> cases dbg <;>
    refine ⟨?_, ?_, ?_⟩ <;>
      simp [Logging.LoggingFilter.enabled, Logging.LoggingFilter.is_enabled,
        Logging.SELF_FILTER, Logging.levelLE, Logging.LevelFilter.toNat, hs] <;>
      cases l <;>
        simp [Logging.Level.toNat]

/-- Witness for C4 at concrete inputs: a pgt-prefixed DEBUG event is
enabled (here in a release build), an external DEBUG event is disabled
and an external INFO event is enabled. -/
theorem C4_logging_filter_policy_witness :
    Logging.LoggingFilter.enabled false "pgt_cli::commands" .debug = true ∧
    (Logging.LoggingFilter.enabled true "external_lib::y" .debug = false ∧
     Logging.LoggingFilter.enabled true "external_lib::y" .info = true) :=
  ⟨(C4_logging_filter_policy false "pgt_cli::commands" .debug).2.1 (by decide),
   (C4_logging_filter_policy true "external_lib::y" .info).2.2 (by decide)⟩

/-- C8: the appender configuration built by `setup_tracing_subscriber`
rotates on an hourly boundary, retains at most 7 files, and names files
with the configurable filename prefix defaulting to "server.log"; pruning
the retained rotation files keeps the newest 7 (a suffix of the
chronologically ordered file list), removing the oldest. -/
theorem C8_log_sink_configuration :
    (∀ (cache_dir : String) (lp : Option String) (p : String),
      Logging.RollingAppenderConfig.filename_prefix
        (Logging.setup_tracing_subscriber cache_dir lp (some p)) = p) ∧
    (∀ (cache_dir : String) (lp : Option String),
      Logging.RollingAppenderConfig.filename_prefix
        (Logging.setup_tracing_subscriber cache_dir lp none) = "server.log") ∧
    (∀ (cache_dir : String) (lp pfx : Option String),
      (Logging.setup_tracing_subscriber cache_dir lp pfx).rotation = .hourly ∧
      (Logging.setup_tracing_subscriber cache_dir lp pfx).max_log_files = 7) ∧
    (∀ files : List Nat,
      (Logging.prune_log_files 7 files).length = min 7 files.length ∧
      Logging.prune_log_files 7 files <:+ files) := by
  refine ⟨fun _ _ _ => rfl, fun _ _ => rfl, fun _ _ _ => ⟨rfl, rfl⟩,
    fun files => ⟨?_, List.drop_suffix _ _⟩⟩
  simp [Logging.prune_log_files]
  omega

/-- Insertions into the ordered map commute when the keys differ. -/
theorem Codegen.btreeInsert_comm {α : Type} {k₁ k₂ : String} (v₁ v₂ : α)
    (hne : k₁ ≠ k₂) (m : List (String × α)) :
    btreeInsert k₁ v₁ (btreeInsert k₂ v₂ m) =
    btreeInsert k₂ v₂ (btreeInsert k₁ v₁ m) := by
  induction m with
  | nil =>
    rcases lt_trichotomy k₁ k₂ with h | h | h
    · simp [btreeInsert, h, h.not_lt, hne, Ne.symm hne]
    · exact absurd h hne
    · simp [btreeInsert, h, h.not_lt, hne, Ne.symm hne]
  | cons hd tl ih =>
    obtain ⟨k, v⟩ := hd
    rcases lt_trichotomy k₁ k with ha | ha | ha <;>
      rcases lt_trichotomy k₂ k with hb | hb | hb
    · rcases lt_trichotomy k₁ k₂ with hc | hc | hc
      · simp [btreeInsert, ha, hb, hc, ha.ne, hb.ne, hc.ne, hc.not_lt, Ne.symm hc.ne]
      · exact absurd hc hne
      · simp [btreeInsert, ha, hb, hc, ha.ne, hb.ne, hc.ne, hc.not_lt, Ne.symm hc.ne]
    · subst hb
      simp [btreeInsert, ha, ha.ne, ha.not_lt, Ne.symm ha.ne]
    · have hc : k₁ < k₂ := ha.trans hb
      simp only [btreeInsert, if_neg hb.not_lt, if_neg (Ne.symm hb.ne), if_pos ha,
        if_neg hc.not_lt, if_neg (Ne.symm hc.ne)]
    · subst ha
      simp [btreeInsert, hb, hb.ne, hb.not_lt, Ne.symm hb.ne]
    · exact absurd (ha.trans hb.symm) hne
    · subst ha
      simp [btreeInsert, hb, hb.not_lt, hb.ne, Ne.symm hb.ne]
    · have hc : k₂ < k₁ := hb.trans ha
      simp only [btreeInsert, if_neg ha.not_lt, if_neg (Ne.symm ha.ne), if_pos hb,
        if_neg hc.not_lt, if_neg hne]
    · subst hb
      simp [btreeInsert, ha, ha.not_lt, ha.ne, Ne.symm ha.ne]
    · simp [btreeInsert, ha.not_lt, Ne.symm ha.ne, hb.not_lt, Ne.symm hb.ne, ih]

/-- Building the ordered map from a pairwise-distinct-key sequence does
not depend on the order of the sequence. -/
theorem Codegen.btreeOfList_perm {α : Type} {l₁ l₂ : List (String × α)}
    (hp : l₁.Perm l₂) (hnd : (l₁.map Prod.fst).Nodup) :
    btreeOfList l₁ = btreeOfList l₂ := by
  have hpw : l₁.Pairwise (fun a b : String × α => a.1 ≠ b.1) :=
    List.pairwise_map.mp hnd
  refine hp.foldl_eq' ?_ []
  intro x hx y hy z
  by_cases hxy : x = y
  · subst hxy; rfl
  · exact btreeInsert_comm y.2 x.2
      (Ne.symm (hpw.forall (fun _ _ h => Ne.symm h) hx hy hxy)) z

/-- Every entry of the map after an insertion is the inserted pair or an
entry that was already present. -/
theorem Codegen.btreeInsert_mem {α : Type} (k : String) (v : α)
    (m : List (String × α)) :
    ∀ p ∈ btreeInsert k v m, p = (k, v) ∨ p ∈ m := by
  induction m with
  | nil =>
    intro p hp
    simp [btreeInsert] at hp
    exact Or.inl hp
  | cons hd tl ih =>
    obtain ⟨k', v'⟩ := hd
    intro p hp
    simp only [btreeInsert] at hp
    split at hp
    · simp at hp ⊢; tauto
    · split at hp
      · simp at hp ⊢; tauto
      · simp at hp ⊢
        rcases hp with hp | hp
        · tauto
        · rcases ih p (by simpa using hp) with h | h <;> tauto

/-- Insertion preserves the strictly-increasing ordering of the keys. -/
theorem Codegen.btreeInsert_sorted {α : Type} (k : String) (v : α)
    (m : List (String × α))
    (hm : List.Sorted (· < ·) (m.map Prod.fst)) :
    List.Sorted (· < ·) ((btreeInsert k v m).map Prod.fst) := by
  induction m with
  | nil => simp [btreeInsert]
  | cons hd tl ih =>
    obtain ⟨k', v'⟩ := hd
    rw [List.map_cons, List.sorted_cons] at hm
    obtain ⟨hk', htl⟩ := hm
    rcases lt_trichotomy k k' with h | h | h
    · simp only [btreeInsert, if_pos h]
      rw [List.map_cons, List.map_cons, List.sorted_cons]
      refine ⟨?_, ?_⟩
      · intro b hb
        rcases (by simpa using hb : b = k' ∨ b ∈ tl.map Prod.fst) with hb | hb
        · exact hb ▸ h
        · exact h.trans (hk' b hb)
      · rw [List.sorted_cons]; exact ⟨hk', htl⟩
    · subst h
      have hins : btreeInsert k v ((k, v') :: tl) = (k, v) :: tl := by
        simp [btreeInsert]
      rw [hins, List.map_cons, List.sorted_cons]
      exact ⟨hk', htl⟩
    · simp only [btreeInsert, if_neg h.not_lt, if_neg h.ne']
      rw [List.map_cons, List.sorted_cons]
      refine ⟨?_, ih htl⟩
      intro b hb
      obtain ⟨p, hp, rfl⟩ := List.mem_map.mp hb
      rcases btreeInsert_mem k v tl p hp with rfl | hmem
      · exact h
      · exact hk' _ (List.mem_map_of_mem Prod.fst hmem)

/-- The keys of the accumulated map are strictly increasing: emission via
`into_values` is in lexicographic key order. -/
theorem Codegen.btreeOfList_sorted {α : Type} (l : List (String × α)) :
    List.Sorted (· < ·) ((btreeOfList l).map Prod.fst) := by
  suffices h : ∀ acc, List.Sorted (· < ·) (acc.map Prod.fst) →
      List.Sorted (· < ·)
        ((l.foldl (fun m p => btreeInsert p.1 p.2 m) acc).map Prod.fst) by
    exact h [] (by simp)
  induction l with
  | nil => intro acc hacc; simpa using hacc
  | cons hd tl ih =>
    intro acc hacc
    exact ih _ (btreeInsert_sorted hd.1 hd.2 acc hacc)

/-- C9 counterexample: the generator is not unconditionally independent
of enumeration order.  The two rule files `foo_bar.rs` and `fooBar.rs`
Pascal-convert to the same map key `FooBar`; `BTreeMap::insert` replaces
on an equal key, so the last-enumerated file wins and the two enumeration
orders of the same file set produce different group files. -/
theorem C9_counterexample :
    ["foo_bar", "fooBar"].Perm ["fooBar", "foo_bar"] ∧
    Codegen.generate_group Codegen.pascal_demo "grp" ["foo_bar", "fooBar"] ≠
      Codegen.generate_group Codegen.pascal_demo "grp" ["fooBar", "foo_bar"] := by
  constructor
  · decide
  · have h1 : Codegen.generate_group Codegen.pascal_demo "grp"
        ["foo_bar", "fooBar"] =
        { rule_imports := ["pub mod fooBar;"]
          rule_names := ["self::fooBar::FooBar"]
          group_name := "grp"
          name := "grp" } := by
      simp [Codegen.generate_group, Codegen.btreeOfList, Codegen.btreeInsert,
        Codegen.btreeValues, Codegen.pascal_demo]
    have h2 : Codegen.generate_group Codegen.pascal_demo "grp"
        ["fooBar", "foo_bar"] =
        { rule_imports := ["pub mod foo_bar;"]
          rule_names := ["self::foo_bar::FooBar"]
          group_name := "grp"
          name := "grp" } := by
      simp [Codegen.generate_group, Codegen.btreeOfList, Codegen.btreeInsert,
        Codegen.btreeValues, Codegen.pascal_demo]
    rw [h1, h2]
    intro h
    exact absurd (congrArg Codegen.GroupFile.rule_imports h) (by decide)

/-- C9 amended: the analyser code generator is deterministic with respect
to directory enumeration order provided distinct files yield distinct map
keys (pairwise distinct Pascal-cased rule stems within a group, pairwise
distinct group directory stems): over the same set of rule files and the
same set of group directories, any two enumeration orders then yield the
same group file, the same category file and the same registry body, and
the accumulated maps emit their entries in strictly increasing
(lexicographic) key order.  Without that proviso the counterexample above
applies: on a key collision `BTreeMap::insert` replacement keeps the
last-enumerated file. -/
theorem C9_codegen_determinism :
    (∀ (pascal : String → String) (group : String)
       (entries₁ entries₂ : List String),
      entries₁.Perm entries₂ → (entries₁.map pascal).Nodup →
      Codegen.generate_group pascal group entries₁ =
        Codegen.generate_group pascal group entries₂) ∧
    (∀ (pascal : String → String) (dirs₁ dirs₂ : List String),
      dirs₁.Perm dirs₂ → dirs₁.Nodup →
      Codegen.generate_category pascal dirs₁ =
        Codegen.generate_category pascal dirs₂) ∧
    (∀ rules₁ rules₂ : List (String × String),
      rules₁.Perm rules₂ → (rules₁.map Prod.fst).Nodup →
      Codegen.update_linter_registry_builder (Codegen.btreeOfList rules₁) =
        Codegen.update_linter_registry_builder (Codegen.btreeOfList rules₂)) ∧
    (∀ pairs : List (String × String × String),
      List.Sorted (· < ·) ((Codegen.btreeOfList pairs).map Prod.fst)) := by
  refine ⟨?_, ?_, ?_, ?_⟩
  · intro pascal group e₁ e₂ hp hnd
    unfold Codegen.generate_group
    have hp2 := hp.map (fun file_name =>
      (pascal file_name,
        ("pub mod " ++ file_name ++ ";",
         "self::" ++ file_name ++ "::" ++ pascal file_name)))
    have hnd2 : ((e₁.map (fun file_name =>
        (pascal file_name,
          ("pub mod " ++ file_name ++ ";",
           "self::" ++ file_name ++ "::" ++ pascal file_name)))).map
        Prod.fst).Nodup := by
      rw [List.map_map]
      exact hnd
    rw [Codegen.btreeOfList_perm hp2 hnd2]
  · intro pascal d₁ d₂ hp hnd
    unfold Codegen.generate_category
    have hp2 := hp.map (fun file_name =>
      (file_name,
        ("pub mod " ++ file_name ++ ";",
         "self::" ++ file_name ++ "::" ++ pascal file_name)))
    have hnd2 : ((d₁.map (fun file_name =>
        (file_name,
          ("pub mod " ++ file_name ++ ";",
           "self::" ++ file_name ++ "::" ++ pascal file_name)))).map
        Prod.fst).Nodup := by
      rw [List.map_map]
      have hid : (Prod.fst ∘ fun file_name =>
          ((file_name : String),
            ("pub mod " ++ file_name ++ ";",
             "self::" ++ file_name ++ "::" ++ pascal file_name))) = id := rfl
      rw [hid, List.map_id]
      exact hnd
    rw [Codegen.btreeOfList_perm hp2 hnd2]
  · intro r₁ r₂ hp hnd
    unfold Codegen.update_linter_registry_builder
    rw [Codegen.btreeOfList_perm hp hnd]
  · intro pairs
    exact Codegen.btreeOfList_sorted pairs

/-- Witness for C9: two concrete enumeration orders of the same rule set
and the same group-directory set produce identical outputs. -/
theorem C9_codegen_determinism_witness :
    Codegen.generate_group (fun s => s) "grp" ["b", "a"] =
      Codegen.generate_group (fun s => s) "grp" ["a", "b"] ∧
    Codegen.generate_category (fun s => s) ["y", "x"] =
      Codegen.generate_category (fun s => s) ["x", "y"] :=
  ⟨C9_codegen_determinism.1 (fun s => s) "grp" ["b", "a"] ["a", "b"]
      (by decide) (by decide),
   C9_codegen_determinism.2.1 (fun s => s) ["y", "x"] ["x", "y"]
      (by decide) (by decide)⟩
